import Mathlib

/-!
Verification development for the Battle-CP client, a browser front end for a
real-time 1v1 naval-combat game with competitive-programming checkpoints.

The definitions below are shallow embeddings of the TypeScript source:
* `handleServerMessage` embeds the reducer of `useGameSocket`
  (frontend hook, `src/unnamed/part_004`);
* `isValidPlacement`, `handleDragEnd`, `randomizeFleet` embed the
  `PlacementBoard` component (`src/unnamed/part_005`);
* the panel/button gating functions embed `ProblemPanel.tsx`,
  `CombatGrid.tsx` and the game page;
* `createStep` / `handleCreateRequest` embed the lobby create page.

JavaScript numbers are modelled as `Nat` (counters, coordinates, sizes) or
`Int` (ship coordinates, which the source initialises to -1; time values).
Grids are lists of lists of cell states.  Optional values are `Option`.
-/

namespace BattleCP

/-- Cell states of a combat grid, from `types/game.ts` (`CellState`). -/
inductive CellState where
  | empty
  | ship
  | hit
  | miss
  deriving DecidableEq, Repr

/-- Client-side game phases, from `types/game.ts` (`GamePhase`). -/
inductive GamePhase where
  | connecting
  | lobby
  | placement
  | combat
  | finished
  deriving DecidableEq, Repr

/-- A confirmed ship placement as sent to the server (`ShipPlacement`). -/
structure ShipPlacement where
  x : Nat
  y : Nat
  size : Nat
  vertical : Bool
  deriving DecidableEq, Repr

/-- The client game state, one field per field of the `GameState` interface
in `types/game.ts` (plus `ships`, which the `YourShips` handler stores on the
state object at runtime). -/
structure GameState where
  phase : GamePhase
  gameId : Option String
  playerId : Option String
  opponentId : Option String
  opponentConnected : Bool
  myShipsPlaced : Bool
  opponentShipsPlaced : Bool
  myGrid : List (List CellState)
  enemyGrid : List (List CellState)
  heat : Nat
  maxHeat : Nat
  maxVetoes : Nat
  isLocked : Bool
  vetoesRemaining : Nat
  vetoTimeRemaining : Option Int
  gameTimeRemaining : Int
  difficulty : Nat
  status : String
  problemsSolved : Nat
  enemyShipsSunk : Nat
  winnerId : Option String
  gameOverReason : Option String
  lastError : Option String
  ships : List ShipPlacement
  deriving DecidableEq, Repr

/-- `initialGameState` from `types/game.ts`. -/
def initialGameState : GameState where
  phase := .connecting
  gameId := none
  playerId := none
  opponentId := none
  opponentConnected := false
  myShipsPlaced := false
  opponentShipsPlaced := false
  myGrid := List.replicate 10 (List.replicate 10 .empty)
  enemyGrid := List.replicate 10 (List.replicate 10 .empty)
  heat := 0
  maxHeat := 7
  maxVetoes := 3
  isLocked := false
  vetoesRemaining := 3
  vetoTimeRemaining := none
  gameTimeRemaining := 45 * 60
  difficulty := 800
  status := "Connecting..."
  problemsSolved := 0
  enemyShipsSunk := 0
  winnerId := none
  gameOverReason := none
  lastError := none
  ships := []

/-- Server-to-client messages, from `types/game.ts` (`ServerMessage`). -/
inductive ServerMessage where
  | gameJoined (gameId : String) (playerId : String) (difficulty : Nat)
      (maxHeat : Nat) (maxVetoes : Nat)
  | playerJoined (playerId : String)
  | shipsConfirmed (playerId : String)
  | gameStart
  | yourShips (ships : List ShipPlacement)
  | gridSync (myGrid enemyGrid : List (List CellState))
  | gameUpdate (status : String) (heat : Nat) (isLocked : Bool)
      (timeRemainingSecs : Int) (vetoesRemaining : Nat)
      (vetoTimeRemainingSecs : Option Int)
  | shotResult (x y : Nat) (hit sunk : Bool) (shooterId : String)
  | weaponsLocked (playerId : String)
  | weaponsUnlocked (playerId : String) (reason : String)
  | gameOver (winnerId : Option String) (reason : String)
      (yourShipsSunk : Option Nat) (yourProblemsSolved : Option Nat)
  | error (message : String)
  deriving DecidableEq, Repr

/-- Whether the characters of `pat` appear at the head of `hay`
(character-wise, as JavaScript `String.prototype.startsWith`). -/
def charsStartWith : List Char → List Char → Bool
  | _, [] => true
  | [], _ :: _ => false
  | a :: as, b :: bs => a = b && charsStartWith as bs

/-- Whether the characters of `pat` appear contiguously somewhere inside
`hay`. -/
def charsContain (hay pat : List Char) : Bool :=
  match hay with
  | [] => pat.isEmpty
  | _ :: rest => charsStartWith hay pat || charsContain rest pat

/-- JavaScript `String.prototype.includes`. -/
def strIncludes (s pat : String) : Bool :=
  charsContain s.data pat.data

/-- Write value `v` at column `x` of row `y` of a grid, modelling
`grid[y][x] = v` after a row-wise copy (`grid.map(row => [...row])`).
Out-of-range indices leave the grid unchanged. -/
def setCell (g : List (List CellState)) (x y : Nat) (v : CellState) :
    List (List CellState) :=
  g.set y ((g.getD y []).set x v)

/-- Read the cell at column `x` of row `y`, modelling `grid[y][x]` at an
in-range index. -/
def cellStateAt (g : List (List CellState)) (x y : Nat) : CellState :=
  (g.getD y []).getD x .empty

/-- The message reducer of `useGameSocket` (`handleServerMessage` in
`src/unnamed/part_004`), one case per server message.  Toasts and console
logging are omitted; the `gameNotFound` / `shouldStopReconnect` flags set by
the `Error` case live in `SocketState` below. -/
def handleServerMessage (prev : GameState) : ServerMessage → GameState
  | .gameJoined gid pid diff mh mv =>
    let wasConnecting := prev.phase = .connecting
    { prev with
        phase := if wasConnecting then .lobby else prev.phase
        gameId := some gid
        playerId := some pid
        difficulty := diff
        maxHeat := mh
        maxVetoes := mv
        vetoesRemaining := mv
        status := if wasConnecting then "Waiting for opponent..." else prev.status }
  | .playerJoined pid =>
    let shouldAdvance := prev.phase = .lobby ∨ prev.phase = .connecting
    { prev with
        opponentId := some pid
        opponentConnected := true
        phase := if shouldAdvance then .placement else prev.phase
        status := "Deploy your fleet" }
  | .shipsConfirmed pid =>
    let isMe := some pid = prev.playerId
    { prev with
        myShipsPlaced := if isMe then true else prev.myShipsPlaced
        opponentShipsPlaced := if ¬isMe then true else prev.opponentShipsPlaced
        status := if isMe then "Waiting for opponent to deploy..." else prev.status }
  | .gameStart =>
    { prev with phase := .combat, status := "COMBAT ACTIVE" }
  | .gameUpdate st heat locked timeRemaining vetoes vetoTime =>
    let newPhase :=
      if st = "Playing" ∧ (prev.phase = .connecting ∨ prev.phase = .lobby ∨
          prev.phase = .placement) then
        GamePhase.combat
      else if strIncludes st "Waiting" ∧ prev.phase = .connecting then
        GamePhase.lobby
      else prev.phase
    { prev with
        heat := heat
        isLocked := locked
        gameTimeRemaining := timeRemaining
        vetoesRemaining := vetoes
        vetoTimeRemaining := vetoTime
        status := st
        phase := newPhase }
  | .shotResult x y hit sunk shooterId =>
    let isMyShot := some shooterId = prev.playerId
    if isMyShot then
      { prev with
          enemyGrid := setCell prev.enemyGrid x y (if hit then .hit else .miss)
          enemyShipsSunk := if sunk then prev.enemyShipsSunk + 1 else prev.enemyShipsSunk }
    else
      { prev with
          myGrid := setCell prev.myGrid x y (if hit then .hit else .miss) }
  | .yourShips ships =>
    { prev with ships := ships }
  | .gridSync myGrid enemyGrid =>
    { prev with myGrid := myGrid, enemyGrid := enemyGrid }
  | .weaponsLocked pid =>
    if some pid ≠ prev.playerId then prev
    else
      { prev with
          isLocked := true
          status := "WEAPONS LOCKED - Solve to unlock" }
  | .weaponsUnlocked pid reason =>
    if some pid ≠ prev.playerId then prev
    else
      { prev with
          isLocked := false
          heat := 0
          status := "Weapons unlocked"
          problemsSolved :=
            if reason = "solved" then prev.problemsSolved + 1 else prev.problemsSolved }
  | .gameOver winnerId reason yourShipsSunk yourProblemsSolved =>
    { prev with
        phase := .finished
        winnerId := winnerId
        gameOverReason := some reason
        status := if winnerId = prev.playerId then "VICTORY" else "DEFEAT"
        problemsSolved := yourProblemsSolved.getD prev.problemsSolved
        enemyShipsSunk := yourShipsSunk.getD prev.enemyShipsSunk }
  | .error message =>
    { prev with lastError := some message }

/-- Position of a phase along the order
`connecting → lobby → placement → combat → finished`. -/
def phaseIdx : GamePhase → Nat
  | .connecting => 0
  | .lobby => 1
  | .placement => 2
  | .combat => 3
  | .finished => 4

/-! ### Placement board (`PlacementBoard` in `src/unnamed/part_005`) -/

/-- Ship orientation, from the placement board. -/
inductive Orientation where
  | horizontal
  | vertical
  deriving DecidableEq, Repr

/-- A draggable ship of the placement board (`ShipData`).  Coordinates are
integers because an undocked ship carries `x = y = -1`. -/
structure ShipData where
  id : String
  size : Nat
  orientation : Orientation
  placed : Bool
  x : Int
  y : Int
  deriving DecidableEq, Repr

/-- `INITIAL_SHIPS`: the five-ship fleet, all undocked. -/
def INITIAL_SHIPS : List ShipData :=
  [ ⟨"carrier", 5, .horizontal, false, -1, -1⟩,
    ⟨"battleship", 4, .horizontal, false, -1, -1⟩,
    ⟨"cruiser", 3, .horizontal, false, -1, -1⟩,
    ⟨"submarine", 3, .horizontal, false, -1, -1⟩,
    ⟨"destroyer", 2, .horizontal, false, -1, -1⟩ ]

/-- Cell `i` of a ship whose origin is `(x, y)`:
`cx = horizontal ? x + i : x`, `cy = vertical ? y + i : y`. -/
def cellAt (o : Orientation) (x y : Int) (i : Nat) : Int × Int :=
  (if o = .horizontal then x + i else x, if o = .vertical then y + i else y)

/-- The occupied-cell list of a candidate ship placed at `(x, y)` (the
`shipCells` set of `isValidPlacement`; string keys `"cx-cy"` are injective on
integer pairs, so a list of pairs is an equivalent model). -/
def shipCellsXY (o : Orientation) (size : Nat) (x y : Int) : List (Int × Int) :=
  (List.range size).map (cellAt o x y)

/-- The occupied-cell list of an already-stored ship. -/
def shipCellsOf (s : ShipData) : List (Int × Int) :=
  shipCellsXY s.orientation s.size s.x s.y

/-- `isValidPlacement(ship, x, y, otherShips)`: the along-axis bound check
(`x + size > 10`, resp. `y + size > 10`) followed by the collision scan
against every placed ship of `otherShips`.  The source returns `false` at the
first colliding cell; `List.all` is equivalent. -/
def isValidPlacement (ship : ShipData) (x y : Int) (otherShips : List ShipData) :
    Bool :=
  if ship.orientation = .horizontal ∧ x + ship.size > 10 then false
  else if ship.orientation = .vertical ∧ y + ship.size > 10 then false
  else
    let shipCells := shipCellsXY ship.orientation ship.size x y
    otherShips.all fun other =>
      !other.placed ||
        (List.range other.size).all fun i =>
          !(decide (cellAt other.orientation other.x other.y i ∈ shipCells))

/-- `handleDragEnd`: on a drop over grid cell `(x, y)` the dragged ship is
looked up and, when `isValidPlacement` accepts, stored as placed at `(x, y)`;
otherwise the ship list is returned unchanged.  Drop targets are the grid
cells `"x-y"` with `0 ≤ x, y < 10`, so the over-position is a pair of
naturals below 10. -/
def handleDragEnd (ships : List ShipData) (activeId : String)
    (over : Option (Nat × Nat)) : List ShipData :=
  match over with
  | none => ships
  | some (ox, oy) =>
    let x : Int := ox
    let y : Int := oy
    match ships.find? (fun s => s.id = activeId) with
    | none => ships
    | some ship =>
      if isValidPlacement ship x y (ships.filter fun s => ¬(s.id = ship.id)) then
        ships.map fun s =>
          if s.id = ship.id then { s with placed := true, x := x, y := y } else s
      else ships

/-- A cell lies on the 10×10 board. -/
def inBoard (c : Int × Int) : Prop :=
  0 ≤ c.1 ∧ c.1 < 10 ∧ 0 ≤ c.2 ∧ c.2 < 10

instance (c : Int × Int) : Decidable (inBoard c) := by
  unfold inBoard; infer_instance

/-- One random placement attempt of `randomizeFleet`, fed by a random triple:
an orientation coin and two raw naturals reduced into `[0, maxX]` and
`[0, maxY]` (`Math.floor(Math.random() * (max + 1))` yields exactly the
values of that range). -/
def randomAttempt (ship : ShipData) (placedShips : List ShipData)
    (r : Bool × Nat × Nat) : Option ShipData :=
  let orientation := if r.1 then Orientation.horizontal else Orientation.vertical
  let maxX := if orientation = .horizontal then 10 - ship.size else 9
  let maxY := if orientation = .vertical then 10 - ship.size else 9
  let x : Nat := r.2.1 % (maxX + 1)
  let y : Nat := r.2.2 % (maxY + 1)
  let testShip : ShipData := { ship with orientation := orientation, x := x, y := y }
  if isValidPlacement testShip x y placedShips then
    some { ship with orientation := orientation, x := x, y := y, placed := true }
  else none

/-- The `while (!placed && attempts < 100)` loop of `randomizeFleet` for one
ship: consume random triples from the stream `rand` (indexed from `k`) for at
most `fuel` attempts; return the (possibly still unplaced) ship, a success
flag, and the next stream index. -/
def tryPlace (ship : ShipData) (placedShips : List ShipData)
    (rand : Nat → Bool × Nat × Nat) : Nat → Nat → ShipData × Bool × Nat
  | 0, k => (ship, false, k)
  | fuel + 1, k =>
    match randomAttempt ship placedShips (rand k) with
    | some s => (s, true, k + 1)
    | none => tryPlace ship placedShips rand fuel (k + 1)

/-- The per-ship loop of `randomizeFleet`: each ship gets up to 100 attempts
against the ships successfully placed so far; only successfully placed ships
are pushed onto `placedShips`. -/
def randomizeGo (rand : Nat → Bool × Nat × Nat) :
    List ShipData → List ShipData → Nat → List ShipData
  | [], _, _ => []
  | ship :: rest, placedShips, k =>
    let (s, ok, next) := tryPlace ship placedShips rand 100 k
    s :: randomizeGo rand rest (if ok then placedShips ++ [s] else placedShips) next

/-- `randomizeFleet`, parameterised by the random stream. -/
def randomizeFleet (rand : Nat → Bool × Nat × Nat) : List ShipData :=
  randomizeGo rand INITIAL_SHIPS [] 0

/-- Two ships never share a cell (stated one-directionally; cell-list
disjointness is symmetric). -/
def placedDisjoint (a b : ShipData) : Prop :=
  a.placed = true → b.placed = true →
    ∀ c ∈ shipCellsOf a, c ∉ shipCellsOf b

/-- The placement invariant of a fleet: every placed ship lies fully on the
board and the placed ships are pairwise disjoint. -/
def fleetInvariant (ships : List ShipData) : Prop :=
  (∀ s ∈ ships, s.placed = true → ∀ c ∈ shipCellsOf s, inBoard c) ∧
    ships.Pairwise placedDisjoint

/-! ### Combat grid firing path (`CombatGrid.tsx` and the game page) -/

/-- `canClick` of a `Cell` of `CombatGrid.tsx`:
`isEnemy && canFire && state === "empty"`. -/
def cellCanClick (isEnemy canFire : Bool) (st : CellState) : Bool :=
  isEnemy && canFire && decide (st = .empty)

/-- The `disabled` attribute of a `Cell` button:
`!canClick || isHit || isMiss`. -/
def cellButtonDisabled (canClick : Bool) (st : CellState) : Bool :=
  !canClick || decide (st = .hit) || decide (st = .miss)

/-- The `fire` action of `useGameSocket`: a `Fire` message goes out only when
the socket is open and the local state is not weapons-locked. -/
def fireActionSends (wsOpen isLocked : Bool) : Bool :=
  wsOpen && !isLocked

/-- Whether a click on enemy-grid cell `(x, y)` results in a `Fire` message:
the cell button must be enabled (`Cell`), `CombatGrid.handleFire` requires
`canFire`, the game page's `handleFire` requires `!isLocked`, and the socket
`fire` action requires an open socket and `!isLocked`.  The game page passes
`canFire = !gameState.isLocked`. -/
def enemyCellFires (gs : GameState) (wsOpen : Bool) (x y : Nat) : Bool :=
  let st := cellStateAt gs.enemyGrid x y
  let canFire := !gs.isLocked
  let canClick := cellCanClick true canFire st
  !(cellButtonDisabled canClick st) && canFire && !gs.isLocked &&
    fireActionSends wsOpen gs.isLocked

/-! ### Problem panel (`ProblemPanel.tsx`) and the veto / solve paths -/

/-- `localVetoTime !== null && localVetoTime > 0`: a veto penalty is
counting down. -/
def vetoPenaltyActive (localVetoTime : Option Nat) : Bool :=
  match localVetoTime with
  | some t => decide (0 < t)
  | none => false

/-- The `disabled` condition of the Veto button:
`vetoesRemaining <= 0 || (localVetoTime !== null && localVetoTime > 0)`. -/
def vetoButtonDisabled (vetoesRemaining : Nat) (localVetoTime : Option Nat) :
    Bool :=
  decide (vetoesRemaining ≤ 0) || vetoPenaltyActive localVetoTime

/-- `handleVeto`: rejects locally when no vetoes remain or a penalty timer is
running; otherwise invokes `onVeto`. -/
def handleVetoSends (vetoesRemaining : Nat) (localVetoTime : Option Nat) :
    Bool :=
  if vetoesRemaining ≤ 0 then false
  else if vetoPenaltyActive localVetoTime then false
  else true

/-- The `veto` action of `useGameSocket`: a `Veto` message goes out only when
the socket is open and `gameState.vetoesRemaining > 0`. -/
def vetoActionSends (wsOpen : Bool) (vetoesRemaining : Nat) : Bool :=
  wsOpen && decide (0 < vetoesRemaining)

/-- Whether a veto attempt results in a `Veto` message: the panel renders
only while `isLocked` (`if (!isLocked) return null`), the Veto button must be
enabled, `handleVeto` must accept, and the socket `veto` action must pass its
own guard. -/
def vetoMessageSent (isLocked wsOpen : Bool) (vetoesRemaining : Nat)
    (localVetoTime : Option Nat) : Bool :=
  isLocked && !(vetoButtonDisabled vetoesRemaining localVetoTime) &&
    handleVetoSends vetoesRemaining localVetoTime &&
    vetoActionSends wsOpen vetoesRemaining

/-- The `ProblemPanel` state driving the verify path: the `verifying` flag
(cleared 3 seconds after an attempt), the `verifyCooldown` countdown (set to
30 on an attempt, decremented once per second), the local veto-penalty
countdown, and whether a problem is loaded. -/
structure PanelState where
  verifying : Bool
  verifyingTimer : Nat
  verifyCooldown : Nat
  localVetoTime : Option Nat
  hasProblem : Bool
  deriving DecidableEq, Repr

/-- Events of the problem panel: a one-second timer tick, or a click on the
Verify button. -/
inductive PanelEvent where
  | tick
  | clickVerify
  deriving DecidableEq, Repr

/-- The `disabled` condition of the Verify button:
`verifying || verifyCooldown > 0 || (localVetoTime !== null && localVetoTime > 0)`. -/
def verifyButtonDisabled (s : PanelState) : Bool :=
  s.verifying || decide (0 < s.verifyCooldown) || vetoPenaltyActive s.localVetoTime

/-- One step of the panel.  A tick runs the one-second countdowns (the
cooldown decrement, the `setTimeout` clearing `verifying`, and the local veto
interval, which drops to `null` from 1 or below).  A click reaches
`handleVerify` only through an enabled button; `handleVerify` itself returns
early without a problem or with a running cooldown, and otherwise emits the
`SolveCP` attempt (the returned flag) while setting `verifying` and the
30-second cooldown. -/
def panelStep (s : PanelState) : PanelEvent → PanelState × Bool
  | .tick =>
    let timer := s.verifyingTimer - 1
    ( { s with
          verifyCooldown := s.verifyCooldown - 1
          verifyingTimer := timer
          verifying := s.verifying && decide (0 < timer)
          localVetoTime :=
            match s.localVetoTime with
            | some t => if t ≤ 1 then none else some (t - 1)
            | none => none },
      false )
  | .clickVerify =>
    if verifyButtonDisabled s then (s, false)
    else if ¬s.hasProblem ∨ 0 < s.verifyCooldown then (s, false)
    else
      ( { s with verifying := true, verifyingTimer := 3, verifyCooldown := 30 },
        true )

/-- Number of `tick` events in an event list. -/
def countTicks (es : List PanelEvent) : Nat :=
  es.countP (fun e => e = PanelEvent.tick)

/-- Number of `SolveCP` attempts emitted while running an event list. -/
def countAttempts (s : PanelState) : List PanelEvent → Nat
  | [] => 0
  | e :: es =>
    (if (panelStep s e).2 then 1 else 0) + countAttempts (panelStep s e).1 es

/-! ### Socket lifecycle (`useGameSocket` connection handling) -/

/-- The `Error` messages that set `gameNotFound` and stop reconnection:
`message.includes("Game not found") || message.includes("not found") ||
message.includes("already ended")`. -/
def errorStopsReconnect (message : String) : Bool :=
  strIncludes message "Game not found" || strIncludes message "not found" ||
    strIncludes message "already ended"

/-- The connection-level state of `useGameSocket`: the reduced game state,
the `gameNotFound` flag, the `shouldStopReconnect` ref, and the reconnect
attempt counter. -/
structure SocketState where
  game : GameState
  gameNotFound : Bool
  shouldStopReconnect : Bool
  reconnectAttempts : Nat
  deriving DecidableEq, Repr

/-- Socket-level events: an inbound parsed server message, a close event with
its close code, or a successful open. -/
inductive SocketEvent where
  | message (m : ServerMessage)
  | closed (code : Nat)
  | opened
  deriving DecidableEq, Repr

/-- The initial socket state. -/
def initialSocketState : SocketState :=
  ⟨initialGameState, false, false, 0⟩

/-- One step of the socket lifecycle.  A message runs the reducer; an `Error`
message matching `errorStopsReconnect` additionally sets `gameNotFound` and
`shouldStopReconnect`.  `ws.onclose` schedules a reconnect (the returned
flag) only when the close was not intentional (`code !== 1000`), fewer than 5
attempts were made, and `shouldStopReconnect` is unset.  `ws.onopen` resets
the attempt counter. -/
def socketStep (s : SocketState) : SocketEvent → SocketState × Bool
  | .message m =>
    let g := handleServerMessage s.game m
    match m with
    | .error msg =>
      if errorStopsReconnect msg then
        ({ s with game := g, gameNotFound := true, shouldStopReconnect := true },
          false)
      else ({ s with game := g }, false)
    | _ => ({ s with game := g }, false)
  | .closed code =>
    if code ≠ 1000 ∧ s.reconnectAttempts < 5 ∧ s.shouldStopReconnect = false then
      ({ s with reconnectAttempts := s.reconnectAttempts + 1 }, true)
    else (s, false)
  | .opened =>
    ({ s with reconnectAttempts := 0 }, false)

/-- Number of reconnection attempts scheduled while running an event list. -/
def countReconnects (s : SocketState) : List SocketEvent → Nat
  | [] => 0
  | e :: es =>
    (if (socketStep s e).2 then 1 else 0) + countReconnects (socketStep s e).1 es

/-! ### Lobby create page (`app/lobby/create/page.tsx`) -/

/-- The adjustable settings of the create page with their initial values
(`useState(800)`, `useState(45)`, `useState(7)`). -/
structure CreateSettings where
  difficulty : Nat
  timeLimit : Nat
  heatThreshold : Nat
  deriving DecidableEq, Repr

/-- Initial slider positions of the create page. -/
def initialSettings : CreateSettings := ⟨800, 45, 7⟩

/-- A slider emits only values inside its `[min, max]` range; an arbitrary
requested value is clamped into the range (the step snapping cannot leave
the range and is irrelevant to the bounds). -/
def clampSlider (lo hi v : Nat) : Nat :=
  max lo (min hi v)

/-- Events of the create page controls: the three slider callbacks, each
with their source `min` / `max` (difficulty 800–2000 step 100, time limit
1–90, heat threshold 3–15). -/
inductive CreateEvent where
  | setDifficulty (v : Nat)
  | setTimeLimit (v : Nat)
  | setHeat (v : Nat)
  deriving DecidableEq, Repr

/-- Apply one control event to the page settings. -/
def createStep (s : CreateSettings) : CreateEvent → CreateSettings
  | .setDifficulty v => { s with difficulty := clampSlider 800 2000 v }
  | .setTimeLimit v => { s with timeLimit := clampSlider 1 90 v }
  | .setHeat v => { s with heatThreshold := clampSlider 3 15 v }

/-- The settings reached after a sequence of control events. -/
def runCreate (es : List CreateEvent) : CreateSettings :=
  es.foldl createStep initialSettings

/-- The game-creation request body built by `handleCreate`
(`difficulty`, `heat_threshold`, `game_duration_mins`). -/
structure CreateRequest where
  difficulty : Nat
  heatThreshold : Nat
  gameDurationMins : Nat
  deriving DecidableEq, Repr

/-- `handleCreate` sends the current settings unchanged. -/
def handleCreateRequest (s : CreateSettings) : CreateRequest :=
  ⟨s.difficulty, s.heatThreshold, s.timeLimit⟩

/-! ## Theorems -/

/-- A game state whose own player id is `"p1"`, used to instantiate
theorems about messages addressed to the local player. -/
def gsOwn : GameState :=
  { initialGameState with playerId := some "p1" }

/-- C3: a `WeaponsUnlocked` message addressed to the client's own player id
leaves heat at 0 and the lock flag cleared, and increments the
problems-solved counter exactly when the unlock reason is `"solved"`. -/
theorem weaponsUnlocked_own_resets (prev : GameState) (pid reason : String)
    (h : prev.playerId = some pid) :
    (handleServerMessage prev (.weaponsUnlocked pid reason)).heat = 0 ∧
    (handleServerMessage prev (.weaponsUnlocked pid reason)).isLocked = false ∧
    (handleServerMessage prev (.weaponsUnlocked pid reason)).problemsSolved =
      (if reason = "solved" then prev.problemsSolved + 1 else prev.problemsSolved) := by
  simp [handleServerMessage, h]

theorem weaponsUnlocked_own_resets_witness :
    (handleServerMessage gsOwn (.weaponsUnlocked "p1" "solved")).heat = 0 ∧
    (handleServerMessage gsOwn (.weaponsUnlocked "p1" "solved")).isLocked = false ∧
    (handleServerMessage gsOwn (.weaponsUnlocked "p1" "solved")).problemsSolved =
      (if "solved" = "solved" then gsOwn.problemsSolved + 1 else gsOwn.problemsSolved) :=
  weaponsUnlocked_own_resets gsOwn "p1" "solved" rfl

/-- C4: `WeaponsLocked` and `WeaponsUnlocked` messages whose player id is
not the client's own player id leave the entire client game state
unchanged. -/
theorem lockEvents_other_player_noop (prev : GameState) (pid reason : String)
    (h : prev.playerId ≠ some pid) :
    handleServerMessage prev (.weaponsLocked pid) = prev ∧
    handleServerMessage prev (.weaponsUnlocked pid reason) = prev := by
  have h' : ¬(some pid = prev.playerId) := fun hc => h hc.symm
  refine ⟨?_, ?_⟩ <;> simp [handleServerMessage, h']

theorem lockEvents_other_player_noop_witness :
    handleServerMessage gsOwn (.weaponsLocked "p2") = gsOwn ∧
    handleServerMessage gsOwn (.weaponsUnlocked "p2" "solved") = gsOwn :=
  lockEvents_other_player_noop gsOwn "p2" "solved" (by decide)

/-- C5: a click on an enemy-grid cell results in a `Fire` message only when
the local weapons are not locked and the cell's state is `empty`; a cell
already marked `hit` or `miss` has a disabled firing control and can never
be fired at again. -/
theorem fire_only_unlocked_empty (gs : GameState) (wsOpen : Bool) (x y : Nat) :
    (enemyCellFires gs wsOpen x y = true →
      gs.isLocked = false ∧ cellStateAt gs.enemyGrid x y = .empty) ∧
    ((cellStateAt gs.enemyGrid x y = .hit ∨ cellStateAt gs.enemyGrid x y = .miss) →
      enemyCellFires gs wsOpen x y = false) := by
  constructor
  · intro h
    refine ⟨?_, ?_⟩
    · cases hL : gs.isLocked
      · rfl
      · exact absurd h (by simp [enemyCellFires, cellCanClick, cellButtonDisabled,
          fireActionSends, hL])
    · cases hs : cellStateAt gs.enemyGrid x y
      · rfl
      all_goals exact absurd h (by simp [enemyCellFires, cellCanClick,
        cellButtonDisabled, fireActionSends, hs])
  · intro h
    rcases h with h | h <;>
      simp [enemyCellFires, cellCanClick, cellButtonDisabled, fireActionSends, h]

/-- A game state whose enemy grid carries a `hit` marker at the origin. -/
def gsHitCell : GameState :=
  { initialGameState with enemyGrid := setCell initialGameState.enemyGrid 0 0 .hit }

theorem fire_only_unlocked_empty_witness :
    (initialGameState.isLocked = false ∧
      cellStateAt initialGameState.enemyGrid 0 0 = .empty) ∧
    enemyCellFires gsHitCell true 0 0 = false :=
  ⟨(fire_only_unlocked_empty initialGameState true 0 0).1 (by decide),
   (fire_only_unlocked_empty gsHitCell true 0 0).2 (by decide)⟩

/-- C6: a `Veto` message goes out only when the player is locked, has more
than zero vetoes remaining, and has no veto penalty counting down; a veto
attempt with zero vetoes or an active penalty is rejected locally and no
message is sent. -/
theorem veto_only_locked_with_vetoes (isLocked wsOpen : Bool)
    (vetoesRemaining : Nat) (localVetoTime : Option Nat) :
    (vetoMessageSent isLocked wsOpen vetoesRemaining localVetoTime = true →
      isLocked = true ∧ 0 < vetoesRemaining ∧
        vetoPenaltyActive localVetoTime = false) ∧
    ((vetoesRemaining = 0 ∨ vetoPenaltyActive localVetoTime = true) →
      vetoMessageSent isLocked wsOpen vetoesRemaining localVetoTime = false) := by
  constructor
  · intro h
    refine ⟨?_, ?_, ?_⟩
    · cases hL : isLocked
      · exact absurd h (by simp [vetoMessageSent, hL])
      · rfl
    · cases hv : vetoesRemaining with
      | zero => exact absurd h (by simp [vetoMessageSent, vetoButtonDisabled, hv])
      | succ n => exact Nat.succ_pos n
    · cases hp : vetoPenaltyActive localVetoTime
      · rfl
      · exact absurd h (by simp [vetoMessageSent, vetoButtonDisabled, hp])
  · intro h
    rcases h with h | h <;>
      simp [vetoMessageSent, vetoButtonDisabled, handleVetoSends,
        vetoActionSends, h]

theorem veto_only_locked_with_vetoes_witness :
    (true = true ∧ 0 < 3 ∧ vetoPenaltyActive none = false) ∧
    vetoMessageSent true true 3 (some 5) = false :=
  ⟨(veto_only_locked_with_vetoes true true 3 none).1 (by decide),
   (veto_only_locked_with_vetoes true true 3 (some 5)).2 (by decide)⟩

/-- C8 counterexample: dragging the time-limit slider to its minimum of 1
minute is a reachable setting, and `handleCreate` then sends a match
duration of 1 minute, below the 5-minute lower clamp the claim asserts. -/
theorem create_duration_below_five_counterexample :
    (handleCreateRequest (runCreate [CreateEvent.setTimeLimit 1])).gameDurationMins = 1 ∧
    ¬(5 ≤ (handleCreateRequest (runCreate [CreateEvent.setTimeLimit 1])).gameDurationMins) := by
  decide

/-- Bounds the create page's sliders maintain on the settings state:
difficulty 800–2000, time limit 1–90, heat threshold 3–15. -/
def settingsInRange (s : CreateSettings) : Prop :=
  800 ≤ s.difficulty ∧ s.difficulty ≤ 2000 ∧
    1 ≤ s.timeLimit ∧ s.timeLimit ≤ 90 ∧
    3 ≤ s.heatThreshold ∧ s.heatThreshold ≤ 15

theorem settingsInRange_initial : settingsInRange initialSettings := by
  simp [settingsInRange, initialSettings]

theorem settingsInRange_step (s : CreateSettings) (e : CreateEvent)
    (h : settingsInRange s) : settingsInRange (createStep s e) := by
  obtain ⟨h1, h2, h3, h4, h5, h6⟩ := h
  cases e <;>
    · simp only [createStep, clampSlider, settingsInRange]
      refine ⟨?_, ?_, ?_, ?_, ?_, ?_⟩ <;> omega

/-- C8 (amended): every request reachable from the create page's controls
carries difficulty in [800,3500], heat threshold in [3,20], and match
duration in [1,120] minutes (the slider allows durations down to 1 minute,
below the spec's 5-minute clamp). -/
theorem create_request_within_bounds (es : List CreateEvent) :
    800 ≤ (handleCreateRequest (runCreate es)).difficulty ∧
    (handleCreateRequest (runCreate es)).difficulty ≤ 3500 ∧
    3 ≤ (handleCreateRequest (runCreate es)).heatThreshold ∧
    (handleCreateRequest (runCreate es)).heatThreshold ≤ 20 ∧
    1 ≤ (handleCreateRequest (runCreate es)).gameDurationMins ∧
    (handleCreateRequest (runCreate es)).gameDurationMins ≤ 120 := by
  have key : settingsInRange (runCreate es) := by
    unfold runCreate
    have gen : ∀ (l : List CreateEvent) (s : CreateSettings), settingsInRange s →
        settingsInRange (l.foldl createStep s) := by
      intro l
      induction l with
      | nil => intro s hs; exact hs
      | cons e l ih =>
        intro s hs
        exact ih _ (settingsInRange_step s e hs)
    exact gen es initialSettings settingsInRange_initial
  obtain ⟨h1, h2, h3, h4, h5, h6⟩ := key
  simp only [handleCreateRequest]
  omega

/-- The `shouldStopReconnect` flag is never cleared by any socket event, and
while it is set no reconnection is ever scheduled. -/
theorem countReconnects_eq_zero_of_stop (es : List SocketEvent)
    (s : SocketState) (hs : s.shouldStopReconnect = true) :
    countReconnects s es = 0 := by
  induction es generalizing s with
  | nil => rfl
  | cons e es ih =>
    have hpres : (socketStep s e).1.shouldStopReconnect = true := by
      cases e with
      | message m =>
        cases m <;> simp [socketStep, hs]
        split <;> simp [hs]
      | closed code => simp [socketStep, hs]
      | opened => simp [socketStep, hs]
    have hsent : (socketStep s e).2 = false := by
      cases e with
      | message m =>
        cases m <;> simp [socketStep]
        split <;> simp
      | closed code => simp [socketStep, hs]
      | opened => simp [socketStep]
    simp [countReconnects, hsent, ih _ hpres]

/-- C9: once the client processes an `Error` message indicating the game
does not exist or has ended, the stop flag is set and no later socket event
(close, open, or message) ever schedules another reconnection attempt. -/
theorem no_reconnect_after_game_not_found (s : SocketState) (msg : String)
    (es : List SocketEvent)
    (h : errorStopsReconnect msg = true) :
    (socketStep s (.message (.error msg))).1.shouldStopReconnect = true ∧
    countReconnects (socketStep s (.message (.error msg))).1 es = 0 := by
  have hstop : (socketStep s (.message (.error msg))).1.shouldStopReconnect = true := by
    simp [socketStep, h]
  exact ⟨hstop, countReconnects_eq_zero_of_stop es _ hstop⟩

theorem no_reconnect_after_game_not_found_witness :
    (socketStep initialSocketState
        (.message (.error "Game not found"))).1.shouldStopReconnect = true ∧
    countReconnects (socketStep initialSocketState
        (.message (.error "Game not found"))).1 [.closed 1006, .closed 1006] = 0 :=
  no_reconnect_after_game_not_found initialSocketState "Game not found"
    [.closed 1006, .closed 1006] (by decide)

/-- While the verify cooldown is larger than the number of elapsed seconds,
no `SolveCP` attempt can be emitted: a tick decrements the cooldown by one,
and a click with a positive cooldown hits a disabled button. -/
theorem countAttempts_eq_zero_of_cooldown (es : List PanelEvent)
    (s : PanelState) (h : countTicks es < s.verifyCooldown) :
    countAttempts s es = 0 := by
  induction es generalizing s with
  | nil => rfl
  | cons e es ih =>
    have hpos : 0 < s.verifyCooldown :=
      Nat.lt_of_le_of_lt (Nat.zero_le _) h
    cases e with
    | tick =>
      have hsent : (panelStep s .tick).2 = false := rfl
      have hcool : (panelStep s .tick).1.verifyCooldown = s.verifyCooldown - 1 := rfl
      have hticks : countTicks (PanelEvent.tick :: es) = countTicks es + 1 := by
        simp [countTicks]
      have h' : countTicks es < (panelStep s .tick).1.verifyCooldown := by
        rw [hcool]; omega
      simp [countAttempts, hsent, ih _ h']
    | clickVerify =>
      have hdis : verifyButtonDisabled s = true := by
        simp [verifyButtonDisabled, hpos]
      have hstep : panelStep s .clickVerify = (s, false) := by
        simp [panelStep, hdis]
      have hticks : countTicks (PanelEvent.clickVerify :: es) = countTicks es := by
        simp [countTicks]
      rw [hticks] at h
      simp [countAttempts, hstep, ih _ h]

/-- C7: while a veto penalty is counting down no `SolveCP` attempt can be
emitted, and after an emitted attempt the 30-second cooldown blocks any
further attempt for at least the next 10 seconds (the source cooldown is 30,
which implies the claimed 10-second spacing). -/
theorem solve_blocked_by_penalty_and_cooldown (s : PanelState)
    (e : PanelEvent) (es : List PanelEvent) :
    (vetoPenaltyActive s.localVetoTime = true → (panelStep s e).2 = false) ∧
    ((panelStep s e).2 = true → countTicks es < 10 →
      countAttempts (panelStep s e).1 es = 0) := by
  constructor
  · intro hp
    cases e with
    | tick => rfl
    | clickVerify =>
      have hdis : verifyButtonDisabled s = true := by
        simp [verifyButtonDisabled, hp]
      simp [panelStep, hdis]
  · intro hsent hticks
    cases e with
    | tick => exact absurd hsent (by simp [panelStep])
    | clickVerify =>
      have hcool : (panelStep s .clickVerify).1.verifyCooldown = 30 := by
        by_cases hdis : verifyButtonDisabled s = true
        · exact absurd hsent (by simp [panelStep, hdis])
        · simp only [panelStep, hdis, Bool.false_eq_true, if_false,
            Bool.not_eq_true] at hsent ⊢
          by_cases hg : s.hasProblem = false ∨ 0 < s.verifyCooldown
          · rw [if_pos hg] at hsent; exact absurd hsent (by simp)
          · rw [if_neg hg]
      apply countAttempts_eq_zero_of_cooldown
      rw [hcool]; omega

/-- A panel state with a loaded problem, no cooldown, and no penalty: the
Verify click goes through. -/
def panelReady : PanelState :=
  ⟨false, 0, 0, none, true⟩

/-- A panel state with an active veto penalty countdown. -/
def panelPenalty : PanelState :=
  ⟨false, 0, 0, some 120, true⟩

theorem solve_blocked_by_penalty_and_cooldown_witness :
    (panelStep panelPenalty .clickVerify).2 = false ∧
    countAttempts (panelStep panelReady .clickVerify).1
      [.tick, .clickVerify, .tick] = 0 :=
  ⟨(solve_blocked_by_penalty_and_cooldown panelPenalty .clickVerify []).1 (by decide),
   (solve_blocked_by_penalty_and_cooldown panelReady .clickVerify
      [.tick, .clickVerify, .tick]).2 (by decide) (by decide)⟩

/-- A client state whose phase has reached `finished`. -/
def finishedState : GameState :=
  { initialGameState with phase := .finished }

/-- C2 counterexample: a `GameStart` message processed in the `finished`
phase moves the phase backward to `combat`, so the phase order is not
preserved by every message sequence and `finished` is not terminal in the
reducer. -/
theorem gameStart_after_finished_moves_backward :
    (handleServerMessage finishedState .gameStart).phase = .combat ∧
    phaseIdx (handleServerMessage finishedState .gameStart).phase <
      phaseIdx finishedState.phase := by
  decide

/-- C2 (amended): for every server message, the reducer moves the phase only
forward along `connecting → lobby → placement → combat → finished` and keeps
`finished` fixed, except that a `GameStart` message unconditionally sets the
phase to `combat`, even from `finished`. -/
theorem phase_monotone_unless_gameStart_after_finished (s : GameState)
    (m : ServerMessage)
    (h : ¬(s.phase = .finished ∧ m = .gameStart)) :
    phaseIdx s.phase ≤ phaseIdx (handleServerMessage s m).phase ∧
    (s.phase = .finished → (handleServerMessage s m).phase = .finished) := by
  cases hp : s.phase <;> cases m <;>
    simp_all [handleServerMessage, phaseIdx] <;>
    split_ifs <;> simp_all [phaseIdx]

theorem phase_monotone_unless_gameStart_after_finished_witness :
    (phaseIdx initialGameState.phase ≤
      phaseIdx (handleServerMessage initialGameState .gameStart).phase ∧
    (initialGameState.phase = .finished →
      (handleServerMessage initialGameState .gameStart).phase = .finished)) :=
  phase_monotone_unless_gameStart_after_finished initialGameState .gameStart
    (by decide)

/-- Membership in the occupied-cell list of a candidate ship. -/
theorem mem_shipCellsXY (o : Orientation) (size : Nat) (x y : Int)
    (c : Int × Int) :
    c ∈ shipCellsXY o size x y ↔ ∃ i < size, cellAt o x y i = c := by
  simp [shipCellsXY, List.mem_map, List.mem_range]

/-- Characterisation of `isValidPlacement`: acceptance is exactly the
along-axis bound check plus cell-disjointness from every placed ship of
`otherShips`. -/
theorem isValidPlacement_eq_true_iff (ship : ShipData) (x y : Int)
    (others : List ShipData) :
    isValidPlacement ship x y others = true ↔
      ¬(ship.orientation = .horizontal ∧ x + ship.size > 10) ∧
      ¬(ship.orientation = .vertical ∧ y + ship.size > 10) ∧
      ∀ other ∈ others, other.placed = true → ∀ i < other.size,
        cellAt other.orientation other.x other.y i ∉
          shipCellsXY ship.orientation ship.size x y := by
  unfold isValidPlacement
  split_ifs with h1 h2
  · simp only [Bool.false_eq_true, false_iff]
    intro hc
    exact hc.1 h1
  · simp only [Bool.false_eq_true, false_iff]
    intro hc
    exact hc.2.1 h2
  · simp only [List.all_eq_true, Bool.or_eq_true, Bool.not_eq_true',
      decide_eq_true_eq, List.mem_range, h1, h2, not_false_iff, true_and]
    constructor
    · intro hall other hmem hplaced i hi
      rcases hall other hmem with hnp | hno
      · rw [hplaced] at hnp; exact absurd hnp (by simp)
      · have := hno i hi
        simpa using this
    · intro hall other hmem
      by_cases hp : other.placed = true
      · right
        intro i hi
        have := hall other hmem hp i hi
        simpa using this
      · left
        exact Bool.not_eq_true _ ▸ hp

/-- Cells of a horizontal ship whose far end passes the bound check and
whose row lies on the board are all on the board. -/
theorem shipCellsXY_inBoard_horizontal (size : Nat) (x y : Int)
    (hx0 : 0 ≤ x) (hy0 : 0 ≤ y) (hfar : x + size ≤ 10) (hy : y < 10) :
    ∀ c ∈ shipCellsXY .horizontal size x y, inBoard c := by
  intro c hc
  rw [mem_shipCellsXY] at hc
  obtain ⟨i, hi, rfl⟩ := hc
  simp only [cellAt, inBoard]
  simp only [reduceIte]
  refine ⟨by omega, by omega, hy0, hy⟩

/-- Cells of a vertical ship whose far end passes the bound check and whose
column lies on the board are all on the board. -/
theorem shipCellsXY_inBoard_vertical (size : Nat) (x y : Int)
    (hx0 : 0 ≤ x) (hy0 : 0 ≤ y) (hfar : y + size ≤ 10) (hx : x < 10) :
    ∀ c ∈ shipCellsXY .vertical size x y, inBoard c := by
  intro c hc
  rw [mem_shipCellsXY] at hc
  obtain ⟨i, hi, rfl⟩ := hc
  simp only [cellAt, inBoard]
  simp only [reduceIte]
  refine ⟨hx0, hx, by omega, by omega⟩

/-- C1: when a ship is dropped on grid cell `(ox, oy)` (grid drop targets
satisfy `ox, oy < 10`), `isValidPlacement` accepts only if every footprint
cell of the candidate — including its far end — lies on the 10×10 board and
no footprint cell coincides with a cell of any previously placed ship; and
when the check rejects, `handleDragEnd` leaves the fleet unchanged. -/
theorem placement_accepts_only_valid (ships : List ShipData)
    (activeId : String) (ox oy : Nat) (ship : ShipData)
    (hx : ox < 10) (hy : oy < 10)
    (hfind : ships.find? (fun s => s.id = activeId) = some ship) :
    (isValidPlacement ship ox oy (ships.filter fun s => ¬(s.id = ship.id)) = true →
      (∀ c ∈ shipCellsXY ship.orientation ship.size ox oy, inBoard c) ∧
      (∀ other ∈ ships.filter (fun s => ¬(s.id = ship.id)), other.placed = true →
        ∀ c ∈ shipCellsXY ship.orientation ship.size ox oy, c ∉ shipCellsOf other)) ∧
    (isValidPlacement ship ox oy (ships.filter fun s => ¬(s.id = ship.id)) = false →
      handleDragEnd ships activeId (some (ox, oy)) = ships) := by
  constructor
  · intro hv
    rw [isValidPlacement_eq_true_iff] at hv
    obtain ⟨hb1, hb2, hcol⟩ := hv
    constructor
    · cases ho : ship.orientation with
      | horizontal =>
        have hfar : ((ox : Int)) + ship.size ≤ 10 := by
          by_contra hgt
          exact hb1 ⟨ho, by omega⟩
        exact shipCellsXY_inBoard_horizontal ship.size ox oy (by positivity)
          (by positivity) hfar (by exact_mod_cast hy)
      | vertical =>
        have hfar : ((oy : Int)) + ship.size ≤ 10 := by
          by_contra hgt
          exact hb2 ⟨ho, by omega⟩
        exact shipCellsXY_inBoard_vertical ship.size ox oy (by positivity)
          (by positivity) hfar (by exact_mod_cast hx)
    · intro other hmem hplaced c hc hcother
      rw [shipCellsOf, mem_shipCellsXY] at hcother
      obtain ⟨i, hi, hceq⟩ := hcother
      exact hcol other hmem hplaced i hi (hceq ▸ hc)
  · intro hv
    simp only [decide_not] at hv
    simp [handleDragEnd, hfind, hv]

theorem placement_accepts_only_valid_witness :
    handleDragEnd INITIAL_SHIPS "carrier" (some (6, 0)) = INITIAL_SHIPS :=
  (placement_accepts_only_valid INITIAL_SHIPS "carrier" 6 0
      ⟨"carrier", 5, .horizontal, false, -1, -1⟩
      (by decide) (by decide) (by decide)).2 (by decide)

/-- Cell-list disjointness is symmetric. -/
theorem disjoint_flip {l1 l2 : List (Int × Int)}
    (h : ∀ c ∈ l1, c ∉ l2) : ∀ c ∈ l2, c ∉ l1 :=
  fun c hc2 hc1 => h c hc1 hc2

/-- Core soundness of one accepted random placement: the accepted cells lie
on the board (the along-axis bound from `isValidPlacement`, the cross-axis
bound from the generator's range) and avoid every placed ship. -/
theorem randomAttempt_core (ship : ShipData) (placedShips : List ShipData)
    (o : Orientation) (X Y : Int) (hX0 : 0 ≤ X) (hY0 : 0 ≤ Y)
    (hcross : (o = .horizontal → Y < 10) ∧ (o = .vertical → X < 10))
    (hvalid : isValidPlacement
        { ship with orientation := o, x := X, y := Y } X Y placedShips = true) :
    (∀ c ∈ shipCellsXY o ship.size X Y, inBoard c) ∧
      ∀ a ∈ placedShips, a.placed = true →
        ∀ c ∈ shipCellsXY o ship.size X Y, c ∉ shipCellsOf a := by
  rw [isValidPlacement_eq_true_iff] at hvalid
  obtain ⟨hb1, hb2, hcol⟩ := hvalid
  have hb1' : ¬(o = Orientation.horizontal ∧ X + (ship.size : Int) > 10) := hb1
  have hb2' : ¬(o = Orientation.vertical ∧ Y + (ship.size : Int) > 10) := hb2
  have hcol' : ∀ a ∈ placedShips, a.placed = true → ∀ i < a.size,
      cellAt a.orientation a.x a.y i ∉ shipCellsXY o ship.size X Y := hcol
  constructor
  · cases o with
    | horizontal =>
      have hfar : X + (ship.size : Int) ≤ 10 := by
        by_contra hgt
        exact hb1' ⟨rfl, by omega⟩
      exact shipCellsXY_inBoard_horizontal ship.size X Y hX0 hY0 hfar (hcross.1 rfl)
    | vertical =>
      have hfar : Y + (ship.size : Int) ≤ 10 := by
        by_contra hgt
        exact hb2' ⟨rfl, by omega⟩
      exact shipCellsXY_inBoard_vertical ship.size X Y hX0 hY0 hfar (hcross.2 rfl)
  · intro a ha hplaced c hc hca
    rw [shipCellsOf, mem_shipCellsXY] at hca
    obtain ⟨i, hi, hceq⟩ := hca
    exact hcol' a ha hplaced i hi (hceq ▸ hc)

/-- An accepted `randomAttempt` yields a placed ship whose cells are on the
board and disjoint from every placed ship it was checked against. -/
theorem randomAttempt_spec (ship : ShipData) (placedShips : List ShipData)
    (r : Bool × Nat × Nat) (s : ShipData)
    (h : randomAttempt ship placedShips r = some s) :
    s.placed = true ∧ (∀ c ∈ shipCellsOf s, inBoard c) ∧
      ∀ a ∈ placedShips, a.placed = true →
        ∀ c ∈ shipCellsOf s, c ∉ shipCellsOf a := by
  obtain ⟨b, rx, ry⟩ := r
  cases b with
  | true =>
    simp [randomAttempt] at h
    obtain ⟨hvalid, rfl⟩ := h
    have hmodpos : (0 : Int) < ↑(10 - ship.size) + 1 := by positivity
    have hX0 : (0 : Int) ≤ ↑rx % (↑(10 - ship.size) + 1) :=
      Int.emod_nonneg _ (by omega)
    have hY0 : (0 : Int) ≤ ↑ry % 10 := Int.emod_nonneg _ (by norm_num)
    have hYlt : (↑ry % 10 : Int) < 10 := Int.emod_lt_of_pos _ (by norm_num)
    have hcore := randomAttempt_core ship placedShips .horizontal
      (↑rx % (↑(10 - ship.size) + 1)) (↑ry % 10) hX0 hY0
      ⟨fun _ => hYlt, fun hv => absurd hv (by simp)⟩ hvalid
    exact ⟨rfl, hcore.1, hcore.2⟩
  | false =>
    simp [randomAttempt] at h
    obtain ⟨hvalid, rfl⟩ := h
    have hmodpos : (0 : Int) < ↑(10 - ship.size) + 1 := by positivity
    have hY0 : (0 : Int) ≤ ↑ry % (↑(10 - ship.size) + 1) :=
      Int.emod_nonneg _ (by omega)
    have hX0 : (0 : Int) ≤ ↑rx % 10 := Int.emod_nonneg _ (by norm_num)
    have hXlt : (↑rx % 10 : Int) < 10 := Int.emod_lt_of_pos _ (by norm_num)
    have hcore := randomAttempt_core ship placedShips .vertical
      (↑rx % 10) (↑ry % (↑(10 - ship.size) + 1)) hX0 hY0
      ⟨fun hv => absurd hv (by simp), fun _ => hXlt⟩ hvalid
    exact ⟨rfl, hcore.1, hcore.2⟩

/-- The attempt loop: on success the returned ship is placed, on-board and
disjoint from `placedShips`; on failure the ship is returned unchanged. -/
theorem tryPlace_spec (rand : Nat → Bool × Nat × Nat)
    (placedShips : List ShipData) (fuel : Nat) :
    ∀ (k : Nat) (ship : ShipData),
    ((tryPlace ship placedShips rand fuel k).2.1 = true →
      ((tryPlace ship placedShips rand fuel k).1.placed = true ∧
       (∀ c ∈ shipCellsOf (tryPlace ship placedShips rand fuel k).1, inBoard c) ∧
       ∀ a ∈ placedShips, a.placed = true →
         ∀ c ∈ shipCellsOf (tryPlace ship placedShips rand fuel k).1,
           c ∉ shipCellsOf a)) ∧
    ((tryPlace ship placedShips rand fuel k).2.1 = false →
      (tryPlace ship placedShips rand fuel k).1 = ship) := by
  induction fuel with
  | zero =>
    intro k ship
    exact ⟨fun h => absurd h (by simp [tryPlace]), fun _ => rfl⟩
  | succ n ih =>
    intro k ship
    cases hra : randomAttempt ship placedShips (rand k) with
    | none =>
      have hstep : tryPlace ship placedShips rand (n + 1) k =
          tryPlace ship placedShips rand n (k + 1) := by
        simp [tryPlace, hra]
      rw [hstep]
      exact ih (k + 1) ship
    | some s =>
      have hstep : tryPlace ship placedShips rand (n + 1) k = (s, true, k + 1) := by
        simp [tryPlace, hra]
      rw [hstep]
      exact ⟨fun _ => randomAttempt_spec ship placedShips (rand k) s hra,
        fun hfalse => absurd hfalse (by simp)⟩

/-- One unfolding step of the per-ship loop. -/
theorem randomizeGo_cons (rand : Nat → Bool × Nat × Nat) (ship : ShipData)
    (rest acc : List ShipData) (k : Nat) :
    randomizeGo rand (ship :: rest) acc k =
      (tryPlace ship acc rand 100 k).1 ::
        randomizeGo rand rest
          (if (tryPlace ship acc rand 100 k).2.1 then
            acc ++ [(tryPlace ship acc rand 100 k).1]
          else acc)
          (tryPlace ship acc rand 100 k).2.2 := rfl

/-- Invariant of the per-ship loop: every placed output ship is on-board and
disjoint from the accumulator, and the outputs are pairwise disjoint. -/
theorem randomizeGo_spec (rand : Nat → Bool × Nat × Nat)
    (ships : List ShipData) :
    ∀ (acc : List ShipData) (k : Nat),
      (∀ s ∈ ships, s.placed = false) →
      (∀ a ∈ acc, a.placed = true) →
      (∀ g ∈ randomizeGo rand ships acc k, g.placed = true →
        (∀ c ∈ shipCellsOf g, inBoard c) ∧
        ∀ a ∈ acc, ∀ c ∈ shipCellsOf g, c ∉ shipCellsOf a) ∧
      (randomizeGo rand ships acc k).Pairwise placedDisjoint := by
  induction ships with
  | nil =>
    intro acc k _ _
    exact ⟨by simp [randomizeGo], by simp [randomizeGo]⟩
  | cons ship rest ih =>
    intro acc k hships hacc
    rw [randomizeGo_cons]
    have hspec := tryPlace_spec rand acc 100 k ship
    cases hok : (tryPlace ship acc rand 100 k).2.1 with
    | true =>
      obtain ⟨hplaced, hbound, hdisj⟩ := hspec.1 hok
      simp only [reduceIte]
      set s := (tryPlace ship acc rand 100 k).1 with hs
      have hacc' : ∀ a ∈ acc ++ [s], a.placed = true := by
        intro a ha
        rcases List.mem_append.mp ha with ha | ha
        · exact hacc a ha
        · rw [List.mem_singleton.mp ha]; exact hplaced
      have hrest := ih (acc ++ [s]) (tryPlace ship acc rand 100 k).2.2
        (fun t ht => hships t (List.mem_cons_of_mem _ ht)) hacc'
      constructor
      · intro g hg hgp
        rcases List.mem_cons.mp hg with rfl | hg
        · exact ⟨hbound, fun a ha => hdisj a ha (hacc a ha)⟩
        · obtain ⟨hb, hd⟩ := (hrest.1 g hg hgp)
          exact ⟨hb, fun a ha => hd a (List.mem_append_left _ ha)⟩
      · refine List.Pairwise.cons ?_ hrest.2
        intro g hg hsp hgp
        have hd := (hrest.1 g hg hgp).2 s (List.mem_append_right _ (List.mem_singleton_self s))
        exact disjoint_flip hd
    | false =>
      have hunch : (tryPlace ship acc rand 100 k).1 = ship := hspec.2 hok
      rw [if_neg Bool.false_ne_true]
      have hrest := ih acc (tryPlace ship acc rand 100 k).2.2
        (fun t ht => hships t (List.mem_cons_of_mem _ ht)) hacc
      constructor
      · intro g hg hgp
        rcases List.mem_cons.mp hg with rfl | hg
        · rw [hunch] at hgp
          exact absurd hgp (by rw [hships ship (List.mem_cons_self _ _)]; simp)
        · exact hrest.1 g hg hgp
      · refine List.Pairwise.cons ?_ hrest.2
        intro g hg hsp
        rw [hunch] at hsp
        rw [hships ship (List.mem_cons_self _ _)] at hsp
        exact absurd hsp (by simp)

/-- C10: every fleet produced by the Randomize action satisfies the
placement invariant — each ship marked placed lies fully on the 10×10 board,
no two placed ships share a cell, and a ship that found no valid position
within its 100 attempts stays unplaced — for every random stream. -/
theorem randomizeFleet_satisfies_invariant (rand : Nat → Bool × Nat × Nat) :
    fleetInvariant (randomizeFleet rand) := by
  have h := randomizeGo_spec rand INITIAL_SHIPS [] 0 (by decide) (by simp)
  exact ⟨fun s hs hp => (h.1 s hs hp).1, h.2⟩

end BattleCP
